import Mathlib

/-!
# Verification of the illuvatar CBCL ingestion core

A shallow embedding, in Lean, of the CBCL byte-level parser and streaming
reader of the `illuvatar` repository (`src/illuvatar/src/bcl/`), together
with theorems settling the frozen claims about it.

Conventions of the embedding:
* machine bytes and integers are `Nat`; a CBCL stream is a `List Nat`
  (every element produced by the real program is < 256; where a masked
  value matters we write the mask explicitly, e.g. `% 16` for a nibble);
* fallible Rust code returns `Except BclError _`; a Rust panic
  (out-of-bounds index, `unwrap` on `None`, `todo!()`, u32 underflow in a
  debug build) is modelled by an outer `Option` being `none`;
* the gzip decompressor (`libdeflater`, an external crate) is an abstract
  parameter `gz : List Nat → Option (List Nat)`: `none` models a
  decompressor error, `some out` a successful decompression producing
  `out`;
* nom parsers over `&[u8]` become functions
  `List Nat → Option (List Nat × α)` returning the unconsumed remainder
  and the value, `none` being a nom error.
-/

namespace Illuvatar

/-! ## Compile-time lookup tables (`src/bcl/parser/cbcl.rs`) -/

/-- `ILLUMINA_MIN_QUAL: u8 = 2` -/
def ILLUMINA_MIN_QUAL : Nat := 2

/-- `NO_CALL: u8 = b'N'` (ASCII 78) -/
def NO_CALL : Nat := 78

/-- `BASES: [u8; 4] = [b'A', b'C', b'G', b'T']` (ASCII 65, 67, 71, 84) -/
def BASES : List Nat := [65, 67, 71, 84]

/-- `BASE_MASK: u8 = 0x03` -/
def BASE_MASK : Nat := 0x03

/-- `calculate_base_lookup`: a 256-entry table, entry 0 set to `NO_CALL`,
entries `1..=254` set to `BASES[i & BASE_MASK]` by the
`while i < 255` loop, entry 255 left at the initial 0. -/
def calculate_base_lookup : List Nat :=
  (List.range 256).map (fun i =>
    if i = 0 then NO_CALL
    else if i < 255 then BASES.getD (i &&& BASE_MASK) 0
    else 0)

/-- `calculate_qual_lookup`: entry 0 set to `ILLUMINA_MIN_QUAL`, entries
`1..=254` set to `[ILLUMINA_MIN_QUAL, i >> 2][(ILLUMINA_MIN_QUAL < (i >> 2))]`,
i.e. the larger of 2 and `i >> 2`; entry 255 left at the initial 0. -/
def calculate_qual_lookup : List Nat :=
  (List.range 256).map (fun i =>
    if i = 0 then ILLUMINA_MIN_QUAL
    else if i < 255 then
      [ILLUMINA_MIN_QUAL, i >>> 2].getD (if ILLUMINA_MIN_QUAL < i >>> 2 then 1 else 0) 0
    else 0)

/-- `BASE_LOOKUP: [u8; 256]` -/
def BASE_LOOKUP : List Nat := calculate_base_lookup

/-- `QUAL_LOOKUP: [u8; 256]` -/
def QUAL_LOOKUP : List Nat := calculate_qual_lookup

/-! ## nom combinators used by the parser

Modelled over `List Nat`: a parser returns `some (remainder, value)` on
success, `none` on a nom error. The combinators used by `cbcl.rs` are
`pair`, `tuple`, `opt`, `count`, `map` and the little-endian integer
readers; all of them are "complete"-input parsers, so the only failure
mode is an error (no `Incomplete`). -/

namespace nom

def Parser (α : Type) : Type := List Nat → Option (List Nat × α)

/-- `le_u8`: read one byte. -/
def le_u8 : Parser Nat := fun i =>
  match i with
  | [] => none
  | b :: r => some (r, b)

/-- `u8`: identical to `le_u8` for our purposes. -/
def u8 : Parser Nat := le_u8

/-- `le_u16`: two bytes, little-endian. -/
def le_u16 : Parser Nat := fun i =>
  match i with
  | b0 :: b1 :: r => some (r, b0 + 256 * b1)
  | _ => none

/-- `le_u32`: four bytes, little-endian. -/
def le_u32 : Parser Nat := fun i =>
  match i with
  | b0 :: b1 :: b2 :: b3 :: r =>
      some (r, b0 + 256 * b1 + 65536 * b2 + 16777216 * b3)
  | _ => none

/-- `pair(p, q)` -/
def pair {α β : Type} (p : Parser α) (q : Parser β) : Parser (α × β) := fun i => do
  let (i, a) ← p i
  let (i, b) ← q i
  some (i, (a, b))

/-- `opt(p)`: `None` on error (with no input consumed), `Some` on success. -/
def opt {α : Type} (p : Parser α) : Parser (Option α) := fun i =>
  match p i with
  | some (r, v) => some (r, some v)
  | none => some (i, none)

/-- `count(p, n)`: run `p` exactly `n` times, collecting the results. -/
def count {α : Type} (p : Parser α) : Nat → Parser (List α)
  | 0 => fun i => some (i, [])
  | n + 1 => fun i => do
      let (i, a) ← p i
      let (i, l) ← count p n i
      some (i, a :: l)

end nom

/-! ## CBCL header parsers (`src/bcl/parser/cbcl.rs`) -/

/-- `cbcl_version_and_size`: `pair(le_u16, le_u32)` over the 6 preheader
bytes. -/
def cbcl_version_and_size : nom.Parser (Nat × Nat) :=
  nom.pair nom.le_u16 nom.le_u32

/-- `cbcl_tile_data`: one 16-byte tile-table row
`(tile_number, num_clusters, uncompressed_size, compressed_size)`. -/
def cbcl_tile_data : nom.Parser (Nat × Nat × Nat × Nat) := fun i => do
  let (i, a) ← nom.le_u32 i
  let (i, b) ← nom.le_u32 i
  let (i, c) ← nom.le_u32 i
  let (i, d) ← nom.le_u32 i
  some (i, (a, b, c, d))

/-- The 7-tuple returned by `cbcl_header`, as a named record (field
order and meaning exactly as in the source's tuple). -/
structure CbclHeaderRaw : Type where
  bits_per_base : Nat
  bits_per_qual : Nat
  num_bins : Nat
  bins : Option (List (Nat × Nat))
  num_tiles : Nat
  tile_data : List (Nat × Nat × Nat × Nat)
  pf_excluded : Nat
deriving DecidableEq, Repr

/-- `cbcl_header`: the rest of the header after the 6 preheader bytes:
`(bits_per_base, bits_per_qual, num_bins, opt(bins), num_tiles, tile_data,
pf_excluded)`, where `bins` is `count(pair(le_u32, le_u32), num_bins)`
wrapped in `opt`. -/
def cbcl_header (input : List Nat) : Option (List Nat × CbclHeaderRaw) := do
  let (i, bits_per_base) ← nom.le_u8 input
  let (i, bits_per_qual) ← nom.le_u8 i
  let (i, num_bins) ← nom.le_u32 i
  let (i, bins) ← nom.opt (nom.count (nom.pair nom.le_u32 nom.le_u32) num_bins) i
  let (i, num_tiles) ← nom.le_u32 i
  let (i, tile_data) ← nom.count cbcl_tile_data num_tiles i
  let (i, pf_excluded) ← nom.u8 i
  some (i, { bits_per_base := bits_per_base, bits_per_qual := bits_per_qual,
             num_bins := num_bins, bins := bins, num_tiles := num_tiles,
             tile_data := tile_data, pf_excluded := pf_excluded })

/-! ## Data model (`src/bcl/mod.rs`) -/

/-- Decidable equality for `Except` (absent from the libraries in this
toolchain). -/
instance {ε α : Type} [DecidableEq ε] [DecidableEq α] :
    DecidableEq (Except ε α) := fun x y =>
  match x, y with
  | .ok a, .ok b =>
      if h : a = b then .isTrue (by rw [h])
      else .isFalse (by intro he; cases he; exact h rfl)
  | .error a, .error b =>
      if h : a = b then .isTrue (by rw [h])
      else .isFalse (by intro he; cases he; exact h rfl)
  | .ok _, .error _ => .isFalse (by intro he; cases he)
  | .error _, .ok _ => .isFalse (by intro he; cases he)

/-- `BclError` (`src/bcl/mod.rs`). Parse errors drop the nom error-kind
detail, which no claim inspects. -/
inductive BclError : Type
  | ParseError : BclError
  | IoError : BclError
  | EofError : BclError
  | DecompressError : BclError
  | DecompSizeMismatch : BclError
  | CompSizeMismatch (expected : Nat) (got : Nat) : BclError
deriving DecidableEq, Repr

/-- `BclTile`: the pair of base and quality byte vectors. -/
structure BclTile : Type where
  bases : List Nat
  quals : List Nat
deriving DecidableEq, Repr

/-- `BclTile::with_capacity(cap)`: both vectors zero-filled to length
`cap` (`vec![0; cap]`). -/
def BclTile.with_capacity (cap : Nat) : BclTile :=
  { bases := List.replicate cap 0, quals := List.replicate cap 0 }

/-- `CBclHeader` with its `Default` (all fields zero / empty). -/
structure CBclHeader : Type where
  version : Nat := 0
  size : Nat := 0
  bits_per_bc : Nat := 0
  bits_per_qs : Nat := 0
  n_bins : Nat := 0
  bins : List Nat := []
  n_tiles : Nat := 0
deriving DecidableEq, Repr

/-- `TileData`: a parsed tile-table row plus the filter handle. The
`&'static [u8]` filter reference becomes the byte list itself. -/
structure TileData : Type where
  tile_num : Nat
  num_clusters : Nat
  block_size_un : Nat
  block_size_comp : Nat
  pf_excluded : Bool
  filter : Option (List Nat)
deriving DecidableEq, Repr

/-- `TileData::has_filter` -/
def TileData.has_filter (td : TileData) : Bool := td.filter.isSome

/-- Modelled from the spec: `TileData::get_or_read_filter` is `todo!()` in
the source; the spec mandates that it yield the lane's cached filter
vector for this tile (reading it on first need). We model it as returning
the handle carried by `TileData.filter`. -/
def TileData.get_or_read_filter (td : TileData) : Option (List Nat) :=
  td.filter

/-- `into_bin_lookup`: keep only `to_qual` of each pair truncated to u8,
then overwrite entry 0 with `ILLUMINA_MIN_QUAL`. On `Some` of an empty
vector the write `bins[0] = 2` is out of bounds — a panic, modelled as
`none`. -/
def into_bin_lookup (raw_bins : Option (List (Nat × Nat))) :
    Option (List Nat) :=
  match raw_bins with
  | some raw =>
      match raw.map (fun b => b.2 % 256) with
      | [] => none
      | _ :: rest => some (ILLUMINA_MIN_QUAL :: rest)
  | none => some []

/-! ## Tile payload decoding (`parse_base_calls`) -/

/-- `fill(bcl_base, slice)(input)` semantics: error when `input` is
shorter than the slice, otherwise overwrite the slice with the image of
the consumed prefix. -/
def fill_map (f : Nat → Nat) (input : List Nat) (slice : List Nat) :
    Option (List Nat × List Nat) :=
  if slice.length ≤ input.length then
    some (input.drop slice.length, (input.take slice.length).map f)
  else none

/-- `bcl_base` lookup: `BASE_LOOKUP[usize::from(x)]` (every `x` the
program produces is < 256, so the `getD` default is never used). -/
def bcl_base_lookup (x : Nat) : Nat := BASE_LOOKUP.getD x 0

/-- `bcl_qual` lookup: `QUAL_LOOKUP[usize::from(x)]`. -/
def bcl_qual_lookup (x : Nat) : Nat := QUAL_LOOKUP.getD x 0

/-- The binned-quality collection
`iter().map(|x| bins[usize::from(x >> 2)]).collect::<Vec<u8>>()`:
each out-of-range index `bins[x >> 2]` panics (`none`). -/
def map_bins (bins : List Nat) : List Nat → Option (List Nat)
  | [] => some []
  | x :: xs =>
      match bins.get? (x >>> 2) with
      | none => none
      | some q => (map_bins bins xs).map (q :: ·)

/-- `parse_base_calls(input, tile, bins)`: fill `tile.bases` through
`BASE_LOOKUP`; then, when `bins` is non-empty, set
`tile.quals = input[0..quals.len()].map(|x| bins[x >> 2])` (the slice
panics when `quals.len() > input.len()`, and the index `bins[x >> 2]`
panics when out of bounds — outer `none`); otherwise fill `tile.quals`
through `QUAL_LOOKUP`. Inner value: `some tile'` on parse success,
`some none` is a nom parse failure, outer `none` is a panic. -/
def parse_base_calls (input : List Nat) (tile : BclTile)
    (bins : List Nat) : Option (Option BclTile) :=
  match fill_map bcl_base_lookup input tile.bases with
  | none => some none
  | some (_, bases') =>
    if bins.length > 0 then
      if tile.quals.length ≤ input.length then
        match map_bins bins (input.take tile.quals.length) with
        | none => none
        | some quals' => some (some { bases := bases', quals := quals' })
      else none
    else
      match fill_map bcl_qual_lookup input tile.quals with
      | none => some none
      | some (_, quals') => some (some { bases := bases', quals := quals' })

/-- The nibble expansion of `read_tile` (lines 124–128 of `reader.rs`):
`flat_map(|x| [x & 0x0f, (x >> 4) & 0x0f])`, low nibble first. -/
def nibble_expand (d : List Nat) : List Nat :=
  d.flatMap (fun x => [x % 16, x / 16 % 16])

/-- The decode stage of `read_tile` applied to a decompressed block `d`:
nibble-expand, allocate a tile of `2·|d|` clusters, decode through
`parse_base_calls`. -/
def decode_tile (d : List Nat) (bins : List Nat) : Option (Option BclTile) :=
  parse_base_calls (nibble_expand d) (BclTile.with_capacity (2 * d.length)) bins

/-! ## Filter application (`filter_reads`, `reader.rs` lines 278–283) -/

/-- `Vec::retain` with the predicate
`|_| filter.iter().next().unwrap() == &1`: the closure ignores its
element and always inspects `filter[0]`. On a non-empty vector with an
empty filter the `unwrap` panics (`none`); otherwise the vector is kept
whole when `filter[0] == 1` and emptied when it is not. -/
def retain_const (l : List Nat) (filter : List Nat) : Option (List Nat) :=
  match l with
  | [] => some []
  | _ :: _ =>
      match filter.head? with
      | none => none
      | some b => some (if b = 1 then l else [])

/-- `filter_reads(tile, filter)`: retain bases then quals with the
constant first-filter-bit predicate. -/
def filter_reads (tile : BclTile) (filter : List Nat) : Option BclTile := do
  let bases ← retain_const tile.bases filter
  let quals ← retain_const tile.quals filter
  some { bases := bases, quals := quals }

/-! ## Streaming reader (`src/bcl/reader.rs`)

The reader state carries the remaining byte stream of `inner`, the two
reusable buffers, the parsed header, the tile cache, the state tag and
`n_read`. Reading `n` bytes from `inner` (`take(n).read_to_end`) yields
`stream.take n` appended to the destination and leaves `stream.drop n`.
The decompressor is the abstract parameter `gz`; filter retrieval
(`get_filter`, a `todo!()` stub in the source) is the abstract parameter
`filters : Nat → Option (List Nat)` modelled from the spec: the lane's
filter vector keyed by tile number, absent when the tile has none. -/

/-- `PREHEADER_SIZE: u32 = 6` -/
def PREHEADER_SIZE : Nat := 6

/-- `CbclReaderState` -/
inductive CbclReaderState : Type
  | Header
  | Tile
  | Complete
deriving DecidableEq, Repr

/-- The observable state of a `CBclReader`. -/
structure Reader : Type where
  stream : List Nat
  buffer : List Nat
  decomp_buffer : List Nat
  header : CBclHeader
  tile_cache : List TileData
  state : CbclReaderState
  n_read : Nat
deriving DecidableEq, Repr

/-- `CBclReader::new(path)`: fresh reader over the file's bytes. -/
def Reader.new (stream : List Nat) : Reader :=
  { stream := stream, buffer := [], decomp_buffer := [],
    header := {}, tile_cache := [], state := .Header, n_read := 0 }

/-- `CBclReader::reset_with(path, clear_tile_cache)`: clear both buffers,
reset `n_read`, swap in the new stream, default the header, optionally
clear the tile cache, set state to `Header`. -/
def Reader.reset_with (r : Reader) (stream : List Nat)
    (clear_tile_cache : Bool) : Reader :=
  { stream := stream, buffer := [], decomp_buffer := [],
    header := {},
    tile_cache := if clear_tile_cache then [] else r.tile_cache,
    state := .Header, n_read := 0 }

/-- `read_header`: read the 6 preheader bytes (short read ⇒ `EofError`),
parse version and header size, read `h_size - 6` further bytes (the u32
subtraction panics in a debug build when `h_size < 6` — modelled as
`none`; short read ⇒ `EofError`), parse the rest of the header, build
`CBclHeader` (a panic inside `into_bin_lookup` propagates) and the tile
rows with their filter handles from `filters`. Returns the consumed
stream remainder together with the outcome; the scratch buffer `to` is
cleared on success; on an error it retains the bytes of the phase that
failed. The triple returned on the non-panic path is
`(outcome, remaining stream, buffer contents)`. -/
def read_header (filters : Nat → Option (List Nat)) (stream : List Nat) :
    Option (Except BclError (CBclHeader × List TileData) × List Nat × List Nat) :=
  let hbuf := stream.take PREHEADER_SIZE
  let stream1 := stream.drop PREHEADER_SIZE
  if hbuf.length ≠ PREHEADER_SIZE then some (.error .EofError, stream1, hbuf)
  else
    match cbcl_version_and_size hbuf with
    | none => some (.error .ParseError, stream1, hbuf)
    | some (_, (version, h_size)) =>
      if h_size < PREHEADER_SIZE then none
      else
        let hbuf2 := stream1.take (h_size - PREHEADER_SIZE)
        let stream2 := stream1.drop (h_size - PREHEADER_SIZE)
        if hbuf2.length ≠ h_size - PREHEADER_SIZE then
          some (.error .EofError, stream2, hbuf2)
        else
          match cbcl_header hbuf2 with
          | none => some (.error .ParseError, stream2, hbuf2)
          | some (_, raw) =>
            match into_bin_lookup raw.bins with
            | none => none
            | some bin_lookup =>
              some (.ok (
                { version := version, size := h_size,
                  bits_per_bc := raw.bits_per_base,
                  bits_per_qs := raw.bits_per_qual,
                  n_bins := raw.num_bins, bins := bin_lookup,
                  n_tiles := raw.num_tiles },
                raw.tile_data.map (fun row => {
                  tile_num := row.1, num_clusters := row.2.1,
                  block_size_un := row.2.2.1,
                  block_size_comp := row.2.2.2,
                  pf_excluded := raw.pf_excluded = 1,
                  filter := filters row.1 })),
                stream2, [])

/-- Lines 138–143 of `reader.rs`: when the filter must be applied
(`!tile_data.pf_excluded && tile_data.has_filter()`), fetch it with
`get_or_read_filter().as_ref().unwrap()` (panic when `None`) and run
`filter_reads`; otherwise pass the tile through. -/
def apply_filter (td : TileData) (tile : BclTile) : Option BclTile :=
  if !td.pf_excluded ∧ td.has_filter then
    match td.get_or_read_filter with
    | none => none
    | some f => filter_reads tile f
  else some tile

/-- `CBclReader::read_tile`. Mirrors `reader.rs` lines 93–149, including
the buffer bookkeeping on the error paths (buffers are cleared only after
a successful tile). Outer `none` is a panic; the inner `Option` is the
iterator-style `Option<Result<BclTile, BclError>>`. -/
def read_tile (gz : List Nat → Option (List Nat)) (r : Reader) :
    Option (Reader × Option (Except BclError BclTile)) :=
  if r.n_read = r.header.n_tiles then some (r, none)
  else
    match r.tile_cache.get? r.n_read with
    | none => none
    | some td =>
      let chunk := r.stream.take td.block_size_comp
      let r1 := { r with stream := r.stream.drop td.block_size_comp,
                         buffer := r.buffer ++ chunk }
      if chunk.length ≠ td.block_size_comp then
        some (r1, some (.error (.CompSizeMismatch td.block_size_comp chunk.length)))
      else
        let db := if r1.decomp_buffer.length < td.block_size_un then
            r1.decomp_buffer ++
              List.replicate (td.block_size_un - r1.decomp_buffer.length) 0
          else r1.decomp_buffer
        let r2 := { r1 with decomp_buffer := db }
        match gz r2.buffer with
        | none => some (r2, some (.error .DecompressError))
        | some out =>
          if out.length ≠ td.block_size_un then
            some ({ r2 with decomp_buffer := out ++ db.drop out.length },
              some (.error .DecompSizeMismatch))
          else
            let db2 := out ++ db.drop td.block_size_un
            let nib := nibble_expand db2
            let r3 := { r2 with decomp_buffer := db2, buffer := nib }
            let tile0 := BclTile.with_capacity (td.block_size_un * 2)
            match parse_base_calls nib tile0 r3.header.bins with
            | none => none
            | some none => some (r3, some (.error .ParseError))
            | some (some tile) =>
              match apply_filter td tile with
              | none => none
              | some tile2 =>
                some ({ r3 with n_read := r3.n_read + 1, buffer := [],
                                decomp_buffer := [] },
                  some (.ok tile2))

/-- The `Tile`-state arm of `Iterator::next`: run `read_tile`; on `None`
transition to `Complete` and yield `None`. -/
def next_tile (gz : List Nat → Option (List Nat)) (r : Reader) :
    Option (Reader × Option (Except BclError BclTile)) :=
  match read_tile gz r with
  | none => none
  | some (r', none) => some ({ r' with state := .Complete }, none)
  | some (r', some x) => some (r', some x)

/-- `Iterator::next` for `CBclReader`: in `Header` state read the header
(on success install it, extend the tile cache, move to `Tile` and recurse
— which immediately runs the `Tile` arm; on error yield the error and
stay in `Header`); in `Tile` state run `read_tile`; in `Complete` state
yield `None`. -/
def Reader.next (gz : List Nat → Option (List Nat))
    (filters : Nat → Option (List Nat)) (r : Reader) :
    Option (Reader × Option (Except BclError BclTile)) :=
  match r.state with
  | .Tile => next_tile gz r
  | .Header =>
      match read_header filters r.stream with
      | none => none
      | some (.error e, stream', buf') =>
          some ({ r with stream := stream', buffer := buf' }, some (.error e))
      | some (.ok (hdr, rows), stream', buf') =>
          next_tile gz ({ r with stream := stream', buffer := buf',
                                 header := hdr,
                                 tile_cache := r.tile_cache ++ rows,
                                 state := .Tile })
  | .Complete => some (r, none)

/-- Drain the iterator for at most `fuel` steps, collecting the items
yielded before the first `None` (panic anywhere ⇒ `none`). -/
def Reader.drain (gz : List Nat → Option (List Nat))
    (filters : Nat → Option (List Nat)) :
    Nat → Reader → Option (List (Except BclError BclTile))
  | 0, _ => some []
  | fuel + 1, r =>
      match r.next gz filters with
      | none => none
      | some (_, none) => some []
      | some (r', some x) => (Reader.drain gz filters fuel r').map (x :: ·)

/-- The successful tiles among a drain's results. -/
def Reader.tiles (gz : List Nat → Option (List Nat))
    (filters : Nat → Option (List Nat)) (fuel : Nat) (r : Reader) :
    Option (List BclTile) :=
  (r.drain gz filters fuel).map
    (fun l => l.filterMap (fun x => x.toOption))

/-! ## Concrete scenario inputs -/

/-- A decompressor instance for concrete scenarios: the block decompresses
to itself (some gzip stream realises any desired block ↦ output map; the
claims' conclusions do not depend on which). -/
def gz_id : List Nat → Option (List Nat) := fun l => some l

/-- A filter environment with no filter for any tile. -/
def filters_none : Nat → Option (List Nat) := fun _ => none

/-- The tile of spec scenario 3: bases `"ACGT"`, quals `[10,11,12,13]`. -/
def tileACGT : BclTile := { bases := [65, 67, 71, 84], quals := [10, 11, 12, 13] }

/-- Spec scenario 1 ("minimal binned CBCL") as a byte stream:
version=1, header_size=65, bits 2/2, n_bins=4,
bins [(0,0),(1,14),(2,25),(3,37)], n_tiles=1,
tile row (1101, 4, 2, 2), non_pf_excluded=1, then the compressed block
(which `gz_id` expands to the two bytes 0x1B, 0xE4). -/
def stream_binned_min : List Nat :=
  [1,0, 65,0,0,0,
   2,2, 4,0,0,0,
   0,0,0,0, 0,0,0,0,
   1,0,0,0, 14,0,0,0,
   2,0,0,0, 25,0,0,0,
   3,0,0,0, 37,0,0,0,
   1,0,0,0,
   77,4,0,0, 4,0,0,0, 2,0,0,0, 2,0,0,0,
   1,
   27,228]

/-- Spec scenario 4 ("truncated compressed block") as a byte stream:
version=1, header_size=41, bits 2/2, n_bins=1, bin (0,37), n_tiles=1,
tile row (1101, 4, 2, 100), non_pf_excluded=1, then only 80 block
bytes. -/
def stream_trunc : List Nat :=
  [1,0, 41,0,0,0,
   2,2, 1,0,0,0,
   0,0,0,0, 37,0,0,0,
   1,0,0,0,
   77,4,0,0, 4,0,0,0, 2,0,0,0, 100,0,0,0,
   1]
  ++ List.replicate 80 0

/-- The reader state after one `next` on `stream_trunc` (the call that
reads the header and then fails the tile's compressed-size check). -/
def reader_trunc_1 : Reader :=
  match Reader.next gz_id filters_none (Reader.new stream_trunc) with
  | some (r, _) => r
  | none => Reader.new stream_trunc

/-- One observable iterator step, keeping only the state. -/
def next_state (gz : List Nat → Option (List Nat))
    (filters : Nat → Option (List Nat)) (r : Reader) : Reader :=
  match Reader.next gz filters r with
  | some (r', _) => r'
  | none => r

/-- A concrete header accepted by `read_header` whose `header_size` (25)
differs from the claim's formula (29 for `n_bins=1`, `n_tiles=0`):
version=1, header_size=25, bits 2/2, n_bins=1, bin (0,37), n_tiles=0. -/
def stream_hdr25 : List Nat :=
  [1,0, 25,0,0,0,
   2,2, 1,0,0,0,
   0,0,0,0, 37,0,0,0,
   0,0,0,0,
   1]

/-- The header parsed from `stream_hdr25`. -/
def hdr25 : CBclHeader :=
  { version := 1, size := 25, bits_per_bc := 2, bits_per_qs := 2,
    n_bins := 1, bins := [2], n_tiles := 0 }


/-- The per-cluster quality decode: `bins[b >> 2]` when the bin table is
non-empty, `QUAL_LOOKUP[b]` otherwise. -/
def cluster_qual (bins : List Nat) (b : Nat) : Nat :=
  if 0 < bins.length then bins.getD (b >>> 2) 0 else bcl_qual_lookup b


/-- All reader-state fields except the tile cache agree. -/
def SameScan (s₁ s₂ : Reader) : Prop :=
  s₁.stream = s₂.stream ∧ s₁.buffer = s₂.buffer ∧
  s₁.decomp_buffer = s₂.decomp_buffer ∧ s₁.header = s₂.header ∧
  s₁.state = s₂.state ∧ s₁.n_read = s₂.n_read


/-- Spec-scenario-style CBCL "A": one tile `(10, 4, 2, 2)` with a 2-byte
block; used as the previously drained file in the C5 counterexample. -/
def stream_A : List Nat :=
  [1,0, 41,0,0,0,
   2,2, 1,0,0,0,
   0,0,0,0, 37,0,0,0,
   1,0,0,0,
   10,0,0,0, 4,0,0,0, 2,0,0,0, 2,0,0,0,
   1,
   16,33]

/-- CBCL "B": one tile `(11, 2, 1, 1)` with a 1-byte block `0x21`
(nibbles 1, 2 → bases "CG", quals [2, 2]). -/
def stream_B : List Nat :=
  [1,0, 41,0,0,0,
   2,2, 1,0,0,0,
   0,0,0,0, 37,0,0,0,
   1,0,0,0,
   11,0,0,0, 2,0,0,0, 1,0,0,0, 1,0,0,0,
   1,
   33]

/-- The reader after fully draining `stream_A` (header step + one tile +
the `None` that flips it to `Complete`). -/
def reader_drained_A : Reader :=
  next_state gz_id filters_none
    (next_state gz_id filters_none (Reader.new stream_A))

/-- The tile-table rows of `stream_B`'s header. -/
def rowsB : List TileData :=
  [{ tile_num := 11, num_clusters := 2, block_size_un := 1,
     block_size_comp := 1, pf_excluded := true, filter := none }]

/-- The parsed header of `stream_B`. -/
def hdrB : CBclHeader :=
  { version := 1, size := 41, bits_per_bc := 2, bits_per_qs := 2,
    n_bins := 1, bins := [2], n_tiles := 1 }

/-- A reader that has drained a CBCL with `stream_B`'s tile table. -/
def readerB_cache : Reader :=
  { stream := [], buffer := [], decomp_buffer := [], header := hdrB,
    tile_cache := rowsB, state := CbclReaderState.Complete, n_read := 1 }


/-! ## C10: the compile-time lookup tables -/

set_option maxRecDepth 8192 in
/-- C10: `BASE_LOOKUP[0] = 'N'` and `BASE_LOOKUP[i] = "ACGT"[i & 3]` for
`i ∈ [1,254]`; `QUAL_LOOKUP[0] = 2` and `QUAL_LOOKUP[i] = max(2, i >> 2)`
for `i ∈ [1,254]`. -/
theorem C10_lookup_tables :
    BASE_LOOKUP.getD 0 0 = 78 ∧
    (∀ i, i < 255 → 1 ≤ i → BASE_LOOKUP.getD i 0 = BASES.getD (i &&& 3) 0) ∧
    QUAL_LOOKUP.getD 0 0 = 2 ∧
    (∀ i, i < 255 → 1 ≤ i → QUAL_LOOKUP.getD i 0 = max 2 (i >>> 2)) := by
  refine ⟨by decide, ?_, by decide, ?_⟩ <;> decide

/-- Witness for C10 at `i = 11` and `i = 100`. -/
theorem C10_lookup_tables_witness :
    BASE_LOOKUP.getD 11 0 = BASES.getD (11 &&& 3) 0 ∧
    QUAL_LOOKUP.getD 100 0 = max 2 (100 >>> 2) :=
  ⟨C10_lookup_tables.2.1 11 (by decide) (by decide),
   C10_lookup_tables.2.2.2 100 (by decide) (by decide)⟩

/-! ## C1: filter application (`filter_reads`)

The source predicate `|_| filter.iter().next().unwrap() == &1` inspects
`filter[0]` for every element, so on the spec's scenario ("ACGT",
[10,11,12,13], filter [1,0,1,1]) everything is retained instead of
dropping position 1. -/

/-- C1: at the spec's own scenario the code keeps the tile unchanged;
it does not produce the masked result `"AGT"`, `[10,12,13]` that the
claim (and the spec's §4.C.1) requires. -/
theorem C1_filter_reads_ignores_mask :
    filter_reads tileACGT [1, 0, 1, 1] = some tileACGT ∧
    filter_reads tileACGT [1, 0, 1, 1] ≠
      some { bases := [65, 71, 84], quals := [10, 12, 13] } := by
  decide

/-! ## C3: the minimal binned CBCL scenario -/

/-- C3 counterexample: the reader yields exactly one tile, and it is
`bases = "TCAG"` (`[84,67,65,71]`), `quals = [25,2,14,37]` — not the
8-cluster `"TGCAAGCT"` / `[14,37,25,2,2,25,37,14]` the claim states
(a 2-byte block holds 4 nibbles, hence 4 clusters). -/
theorem C3_counterexample :
    Reader.drain gz_id filters_none 3 (Reader.new stream_binned_min) =
      some [Except.ok { bases := [84, 67, 65, 71], quals := [25, 2, 14, 37] }] ∧
    Reader.drain gz_id filters_none 3 (Reader.new stream_binned_min) ≠
      some [Except.ok { bases := [84, 71, 67, 65, 65, 71, 67, 84],
                        quals := [14, 37, 25, 2, 2, 25, 37, 14] }] := by
  decide

/-- C3 amended: the scenario yields exactly one tile, with
`bases = "TCAG"` and `quals = [25, 2, 14, 37]`. -/
theorem C3_minimal_binned_cbcl :
    Reader.tiles gz_id filters_none 3 (Reader.new stream_binned_min) =
      some [{ bases := [84, 67, 65, 71], quals := [25, 2, 14, 37] }] := by
  decide

/-! ## C4: truncated compressed block -/

/-- C4 counterexample: the first `next` on the truncated scenario does
yield `CompSizeMismatch{expected: 100, got: 80}`, but the reader stays in
the `Tile` state and the following `next` yields
`Some(Err(CompSizeMismatch{expected: 100, got: 0}))`, not `None`. -/
theorem C4_counterexample :
    Reader.next gz_id filters_none (Reader.new stream_trunc) =
      some (reader_trunc_1,
        some (.error (.CompSizeMismatch 100 80))) ∧
    reader_trunc_1.state ≠ CbclReaderState.Complete ∧
    Reader.next gz_id filters_none reader_trunc_1 ≠
      some (reader_trunc_1, none) := by
  decide

/-- C4 amended: the error `CompSizeMismatch{100, 80}` is yielded, but the
reader remains in the `Tile` state and every subsequent `next` yields
`Some(Err(CompSizeMismatch{expected: 100, got: 0}))` from an unchanged
state — it never reaches `Complete` and never returns `None`. -/
theorem C4_truncated_block :
    Reader.next gz_id filters_none (Reader.new stream_trunc) =
      some (reader_trunc_1, some (.error (.CompSizeMismatch 100 80))) ∧
    reader_trunc_1.state = CbclReaderState.Tile ∧
    ∀ k, (next_state gz_id filters_none)^[k] reader_trunc_1 = reader_trunc_1 ∧
      Reader.next gz_id filters_none
          ((next_state gz_id filters_none)^[k] reader_trunc_1) =
        some (reader_trunc_1, some (.error (.CompSizeMismatch 100 0))) := by
  refine ⟨by decide, by decide, ?_⟩
  have hfix : next_state gz_id filters_none reader_trunc_1 = reader_trunc_1 := by
    decide
  intro k
  have hiter : (next_state gz_id filters_none)^[k] reader_trunc_1 = reader_trunc_1 :=
    Function.iterate_fixed hfix k
  refine ⟨hiter, ?_⟩
  rw [hiter]
  decide

/-! ## C6: `bin_pairs` versus `n_bins` -/

/-- C6 counterexample: on the 11-byte header body with `n_bins = 0` the
parser succeeds and returns `Some([])` for the bin pairs — not `None` —
so "`bin_pairs` is `None` iff `n_bins == 0`" fails. -/
theorem C6_counterexample :
    cbcl_header [2, 2, 0, 0, 0, 0, 0, 0, 0, 0, 1] =
      some ([], { bits_per_base := 2, bits_per_qual := 2, num_bins := 0,
                  bins := some [], num_tiles := 0, tile_data := [],
                  pf_excluded := 1 }) ∧
    (some ([] : List (Nat × Nat)) ≠ (none : Option (List (Nat × Nat)))) := by
  decide

/-- Helper: whenever `cbcl_header` succeeds with a parsed `num_bins` of
zero, the `bins` component is `some []` (the inner `count(_, 0)` always
succeeds with the empty list, so `opt` never backtracks). -/
theorem cbcl_header_nbins_zero (input rest : List Nat) (raw : CbclHeaderRaw)
    (h : cbcl_header input = some (rest, raw)) (h0 : raw.num_bins = 0) :
    raw.bins = some [] := by
  unfold cbcl_header at h
  simp only [bind, Option.bind_eq_some] at h
  obtain ⟨⟨i1, bb⟩, h1, h⟩ := h
  obtain ⟨⟨i2, bq⟩, h2, h⟩ := h
  obtain ⟨⟨i3, nb⟩, h3, h⟩ := h
  obtain ⟨⟨i4, bins⟩, h4, h⟩ := h
  obtain ⟨⟨i5, nt⟩, h5, h⟩ := h
  obtain ⟨⟨i6, td⟩, h6, h⟩ := h
  obtain ⟨⟨i7, pf⟩, h7, h⟩ := h
  cases h
  simp only at h0
  subst h0
  simp only [nom.opt, nom.count] at h4
  cases h4
  rfl

/-- C6 amended: in every accepted header, `bin_pairs` is `Some([])` when
`n_bins == 0` (never `None`); consequently `bin_pairs` can be `None` only
when `n_bins > 0`. -/
theorem C6_bin_pairs (input rest : List Nat) (raw : CbclHeaderRaw)
    (h : cbcl_header input = some (rest, raw)) :
    (raw.num_bins = 0 → raw.bins = some []) ∧
    (raw.bins = none → 0 < raw.num_bins) := by
  constructor
  · exact fun h0 => cbcl_header_nbins_zero input rest raw h h0
  · intro hnone
    by_contra hle
    have h0 : raw.num_bins = 0 := by omega
    have := cbcl_header_nbins_zero input rest raw h h0
    rw [hnone] at this
    cases this

/-- Witness for C6 at the 11-byte header body with `n_bins = 0`. -/
theorem C6_bin_pairs_witness :
    ({ bits_per_base := 2, bits_per_qual := 2, num_bins := 0,
       bins := some [], num_tiles := 0, tile_data := [],
       pf_excluded := 1 } : CbclHeaderRaw).bins = some [] :=
  (C6_bin_pairs [2, 2, 0, 0, 0, 0, 0, 0, 0, 0, 1] []
      { bits_per_base := 2, bits_per_qual := 2, num_bins := 0,
        bins := some [], num_tiles := 0, tile_data := [],
        pf_excluded := 1 } (by decide)).1 (by decide)

/-! ## C7: unbinned files panic in the header step -/

/-- C7: for any stream whose preheader declares
`header_size = 6 + |body|` and whose header body parses with
`n_bins = 0`, `read_header` panics (returns `none` in the model): the
parser yields `Some([])` for the bins and `into_bin_lookup` then indexes
`bins[0]` on an empty vector. The file therefore never reaches the
`Tile` state. -/
theorem C7_unbinned_header_panics
    (filters : Nat → Option (List Nat))
    (v0 v1 s0 s1 s2 s3 : Nat) (body tail rest : List Nat)
    (raw : CbclHeaderRaw)
    (hsize : s0 + 256 * s1 + 65536 * s2 + 16777216 * s3 = 6 + body.length)
    (hparse : cbcl_header body = some (rest, raw))
    (h0 : raw.num_bins = 0) :
    read_header filters (v0 :: v1 :: s0 :: s1 :: s2 :: s3 :: (body ++ tail)) =
      none := by
  have hbins : raw.bins = some [] :=
    cbcl_header_nbins_zero body rest raw hparse h0
  unfold read_header
  simp only [PREHEADER_SIZE, List.take, List.drop, List.length,
    cbcl_version_and_size, nom.pair, nom.le_u16, nom.le_u32,
    Option.some_bind]
  norm_num
  rw [hsize]
  intro h6
  have hlt : ¬ (body.length + tail.length + 6 < 6 + body.length) := by omega
  rw [if_neg hlt, Nat.add_sub_cancel_left, List.take_left]
  simp only [hparse, hbins]
  rfl

/-- Witness for C7: a concrete unbinned CBCL (header size 17, `n_bins=0`)
panics in the header step. -/
theorem C7_unbinned_header_panics_witness :
    read_header filters_none
      (1 :: 0 :: 17 :: 0 :: 0 :: 0 ::
        (([2, 2, 0, 0, 0, 0, 0, 0, 0, 0, 1] : List Nat) ++ [])) = none :=
  C7_unbinned_header_panics filters_none 1 0 17 0 0 0
    [2, 2, 0, 0, 0, 0, 0, 0, 0, 0, 1] [] []
    { bits_per_base := 2, bits_per_qual := 2, num_bins := 0, bins := some [],
      num_tiles := 0, tile_data := [], pf_excluded := 1 }
    (by decide) (by decide) (by decide)

/-! ## C9: the header-size relation -/

/-- `le_u8` consumes exactly one byte. -/
theorem le_u8_len {i r : List Nat} {v : Nat}
    (h : nom.le_u8 i = some (r, v)) : i.length = 1 + r.length := by
  cases i with
  | nil => cases h
  | cons b t => cases h; simp [Nat.add_comm]

/-- `le_u32` consumes exactly four bytes. -/
theorem le_u32_len {i r : List Nat} {v : Nat}
    (h : nom.le_u32 i = some (r, v)) : i.length = 4 + r.length := by
  match i, h with
  | b0 :: b1 :: b2 :: b3 :: t, h => cases h; simp; omega

/-- A bin pair consumes exactly eight bytes. -/
theorem pair_u32_len {i r : List Nat} {v : Nat × Nat}
    (h : nom.pair nom.le_u32 nom.le_u32 i = some (r, v)) :
    i.length = 8 + r.length := by
  simp only [nom.pair, bind, Option.bind_eq_some] at h
  obtain ⟨⟨i1, a⟩, h1, h⟩ := h
  obtain ⟨⟨i2, b⟩, h2, h⟩ := h
  cases h
  have := le_u32_len h1
  have := le_u32_len h2
  dsimp only at *
  omega

/-- A tile-table row consumes exactly sixteen bytes. -/
theorem cbcl_tile_data_len {i r : List Nat} {v : Nat × Nat × Nat × Nat}
    (h : cbcl_tile_data i = some (r, v)) : i.length = 16 + r.length := by
  simp only [cbcl_tile_data, bind, Option.bind_eq_some] at h
  obtain ⟨⟨i1, a⟩, h1, h⟩ := h
  obtain ⟨⟨i2, b⟩, h2, h⟩ := h
  obtain ⟨⟨i3, c⟩, h3, h⟩ := h
  obtain ⟨⟨i4, d⟩, h4, h⟩ := h
  cases h
  have := le_u32_len h1
  have := le_u32_len h2
  have := le_u32_len h3
  have := le_u32_len h4
  dsimp only at *
  omega

/-- `count p n` consumes exactly `k·n` bytes when `p` consumes exactly
`k`, and returns `n` values. -/
theorem count_len {α : Type} {p : nom.Parser α} {k : Nat}
    (hp : ∀ i r v, p i = some (r, v) → i.length = k + r.length) :
    ∀ n i r l, nom.count p n i = some (r, l) →
      i.length = k * n + r.length ∧ l.length = n := by
  intro n
  induction n with
  | zero => intro i r l h; cases h; simp
  | succ m ih =>
      intro i r l h
      simp only [nom.count, bind, Option.bind_eq_some] at h
      obtain ⟨⟨i1, a⟩, h1, h⟩ := h
      obtain ⟨⟨i2, t⟩, h2, h⟩ := h
      cases h
      have hstep := hp i i1 a h1
      have hrest := ih i1 i2 t h2
      have hmul : k * (m + 1) = k + k * m := by ring
      dsimp only at *
      constructor
      · omega
      · simp [hrest.2]

/-- C9 counterexample: `read_header` accepts `stream_hdr25` — consuming
its 19 header-body bytes exactly — yet its `header_size` is 25, not the
claim's `6+2+4+4+8·n_bins+4+16·n_tiles+1 = 29`: the formula overcounts by
4, so the stated invariant fails on an accepted header. -/
theorem C9_counterexample :
    read_header filters_none stream_hdr25 =
      some (.ok (hdr25, []), [], []) ∧
    hdr25.size ≠
      6 + 2 + 4 + 4 + 8 * hdr25.n_bins + 4 + 16 * hdr25.n_tiles + 1 := by
  decide

/-- C9 amended: when the bin table is present, the rest-of-header parser
consumes exactly `2 + 4 + 8·n_bins + 4 + 16·n_tiles + 1` bytes (and the
bin table has `n_bins` entries); `header_size` itself is not validated
against this total by the header-reading step. -/
theorem C9_header_consumption (input rest : List Nat) (raw : CbclHeaderRaw)
    (l : List (Nat × Nat)) (h : cbcl_header input = some (rest, raw))
    (hb : raw.bins = some l) :
    input.length =
      2 + 4 + 8 * raw.num_bins + 4 + 16 * raw.num_tiles + 1 + rest.length ∧
    l.length = raw.num_bins := by
  unfold cbcl_header at h
  simp only [bind, Option.bind_eq_some] at h
  obtain ⟨⟨i1, bb⟩, h1, h⟩ := h
  obtain ⟨⟨i2, bq⟩, h2, h⟩ := h
  obtain ⟨⟨i3, nb⟩, h3, h⟩ := h
  obtain ⟨⟨i4, bins⟩, h4, h⟩ := h
  obtain ⟨⟨i5, nt⟩, h5, h⟩ := h
  obtain ⟨⟨i6, td⟩, h6, h⟩ := h
  obtain ⟨⟨i7, pf⟩, h7, h⟩ := h
  cases h
  simp only at hb
  unfold nom.opt at h4
  cases hop : nom.count (nom.pair nom.le_u32 nom.le_u32) nb i3 with
  | none =>
      rw [hop] at h4
      cases h4
      cases hb
  | some p =>
      obtain ⟨ip, lp⟩ := p
      rw [hop] at h4
      cases h4
      have hl : lp = l := Option.some.inj hb
      subst hl
      have hbinlen := count_len (fun i r v hh => pair_u32_len hh) nb i3 _ _ hop
      have htilelen := count_len (fun i r v hh => cbcl_tile_data_len hh) nt _ _ _ h6
      have e1 := le_u8_len h1
      have e2 := le_u8_len h2
      have e3 := le_u32_len h3
      have e5 := le_u32_len h5
      have e7 := le_u8_len h7
      dsimp only at *
      constructor
      · omega
      · exact hbinlen.2

/-- Witness for C9 at the 19-byte header body of `stream_hdr25`. -/
theorem C9_header_consumption_witness :
    ([2,2, 1,0,0,0, 0,0,0,0, 37,0,0,0, 0,0,0,0, 1] : List Nat).length =
      2 + 4 + 8 * 1 + 4 + 16 * 0 + 1 + ([] : List Nat).length ∧
    ([((0 : Nat), (37 : Nat))] : List (Nat × Nat)).length = 1 :=
  C9_header_consumption [2,2, 1,0,0,0, 0,0,0,0, 37,0,0,0, 0,0,0,0, 1] []
    { bits_per_base := 2, bits_per_qual := 2, num_bins := 1,
      bins := some [(0, 37)], num_tiles := 0, tile_data := [],
      pf_excluded := 1 }
    [(0, 37)] (by decide) (by decide)

/-! ## C2: nibble expansion and per-cluster decoding -/

/-- Nibble expansion doubles the length. -/
theorem nibble_expand_length (d : List Nat) :
    (nibble_expand d).length = 2 * d.length := by
  induction d with
  | nil => rfl
  | cons x xs ih =>
      simp only [nibble_expand] at *
      simp [ih]
      omega

/-- Positions `2k` and `2k+1` of the nibble expansion hold the low and
high nibble of byte `k`. -/
theorem nibble_expand_get (d : List Nat) (k : Nat) (hk : k < d.length) :
    (nibble_expand d).get? (2 * k) = some (d.getD k 0 % 16) ∧
    (nibble_expand d).get? (2 * k + 1) = some (d.getD k 0 / 16 % 16) := by
  induction d generalizing k with
  | nil => cases hk
  | cons x xs ih =>
      cases k with
      | zero => simp [nibble_expand]
      | succ m =>
          have hm : m < xs.length := by
            simpa using Nat.lt_of_succ_lt_succ hk
          have hrec := ih m hm
          have hne : nibble_expand (x :: xs) =
              x % 16 :: x / 16 % 16 :: nibble_expand xs := rfl
          have h1 : 2 * (m + 1) = 2 * m + 1 + 1 := by ring
          have h2 : 2 * (m + 1) + 1 = 2 * m + 1 + 1 + 1 := by ring
          constructor
          · rw [hne, h1, List.get?_cons_succ, List.get?_cons_succ,
              List.getD_cons_succ]
            exact hrec.1
          · rw [hne, h2, List.get?_cons_succ, List.get?_cons_succ,
              List.getD_cons_succ]
            exact hrec.2

/-- `map_bins` characterised pointwise. -/
theorem map_bins_get (bins : List Nat) :
    ∀ (l l' : List Nat), map_bins bins l = some l' →
      l'.length = l.length ∧
      ∀ j, l'.get? j = (l.get? j).bind (fun x => bins.get? (x >>> 2)) := by
  intro l
  induction l with
  | nil =>
      intro l' h
      cases h
      exact ⟨rfl, fun j => by cases j <;> rfl⟩
  | cons x xs ih =>
      intro l' h
      simp only [map_bins] at h
      cases hq : bins.get? (x >>> 2) with
      | none => rw [hq] at h; cases h
      | some q =>
          rw [hq] at h
          cases hrest : map_bins bins xs with
          | none => rw [hrest] at h; cases h
          | some t =>
              rw [hrest] at h
              cases h
              obtain ⟨hlen, hget⟩ := ih t hrest
              refine ⟨by simp [hlen], fun j => ?_⟩
              cases j with
              | zero =>
                  rw [List.get?_cons_zero, List.get?_cons_zero,
                    Option.some_bind]
                  exact hq.symm
              | succ m =>
                  rw [List.get?_cons_succ, List.get?_cons_succ]
                  exact hget m

/-- What a successful `fill_map` produces. -/
theorem fill_map_some {f : Nat → Nat} {input slice rest out : List Nat}
    (h : fill_map f input slice = some (rest, out)) :
    slice.length ≤ input.length ∧
    out = (input.take slice.length).map f ∧
    rest = input.drop slice.length := by
  unfold fill_map at h
  split at h
  · cases h
    exact ⟨by assumption, rfl, rfl⟩
  · cases h

/-- What a successful `parse_base_calls` produces. -/
theorem parse_base_calls_some (input : List Nat) (t0 : BclTile)
    (bins : List Nat) (t : BclTile)
    (h : parse_base_calls input t0 bins = some (some t)) :
    t.bases = (input.take t0.bases.length).map bcl_base_lookup ∧
    t0.bases.length ≤ input.length ∧ t0.quals.length ≤ input.length ∧
    ((0 < bins.length ∧
        map_bins bins (input.take t0.quals.length) = some t.quals) ∨
     (bins.length = 0 ∧
        t.quals = (input.take t0.quals.length).map bcl_qual_lookup)) := by
  unfold parse_base_calls at h
  split at h
  · simp at h
  · next fst bases' heq =>
      obtain ⟨hble, hbeq, _⟩ := fill_map_some heq
      split at h
      · next hbins =>
          split at h
          · next hqle =>
              split at h
              · cases h
              · next quals' hm =>
                  cases h
                  exact ⟨hbeq, hble, hqle, Or.inl ⟨hbins, hm⟩⟩
          · cases h
      · next hbins =>
          split at h
          · simp at h
          · next fst2 quals' heq2 =>
              obtain ⟨hqle, hqeq, _⟩ := fill_map_some heq2
              cases h
              exact ⟨hbeq, hble, hqle, Or.inr ⟨by omega, hqeq⟩⟩

/-- C2: a decompressed block `d` decodes into `2·|d|` clusters; cluster
`2k` comes from the low nibble `d[k] & 0x0F` and cluster `2k+1` from the
high nibble `(d[k] >> 4) & 0x0F`, and each resulting byte `b` yields base
`BASE_LOOKUP[b]` and quality `bins[b >> 2]` when the bin table is
non-empty, `QUAL_LOOKUP[b]` otherwise. -/
theorem C2_decode_pointwise (d bins : List Nat) (tile : BclTile)
    (h : decode_tile d bins = some (some tile)) :
    tile.bases.length = 2 * d.length ∧ tile.quals.length = 2 * d.length ∧
    ∀ k, k < d.length →
      tile.bases.get? (2 * k) = some (bcl_base_lookup (d.getD k 0 % 16)) ∧
      tile.bases.get? (2 * k + 1) =
        some (bcl_base_lookup (d.getD k 0 / 16 % 16)) ∧
      tile.quals.get? (2 * k) = some (cluster_qual bins (d.getD k 0 % 16)) ∧
      tile.quals.get? (2 * k + 1) =
        some (cluster_qual bins (d.getD k 0 / 16 % 16)) := by
  unfold decode_tile at h
  obtain ⟨hbases, _, _, hquals⟩ := parse_base_calls_some _ _ _ _ h
  have hnib := nibble_expand_length d
  have hlen0 : (BclTile.with_capacity (2 * d.length)).bases.length =
      2 * d.length := by simp [BclTile.with_capacity]
  have hlenq0 : (BclTile.with_capacity (2 * d.length)).quals.length =
      2 * d.length := by simp [BclTile.with_capacity]
  rw [hlen0, ← hnib, List.take_length] at hbases
  rw [hlenq0, ← hnib, List.take_length] at hquals
  have hblen : tile.bases.length = 2 * d.length := by
    rw [hbases, List.length_map, hnib]
  have hqlen : tile.quals.length = 2 * d.length := by
    rcases hquals with ⟨_, hm⟩ | ⟨_, hm⟩
    · exact ((map_bins_get bins _ _ hm).1).trans hnib
    · rw [hm, List.length_map, hnib]
  have hqual_at : ∀ j b, (nibble_expand d).get? j = some b →
      j < 2 * d.length → tile.quals.get? j = some (cluster_qual bins b) := by
    intro j b hj hjlen
    rcases hquals with ⟨hpos, hm⟩ | ⟨hzero, hm⟩
    · have hget := (map_bins_get bins _ _ hm).2 j
      rw [hj, Option.some_bind] at hget
      cases hv : bins.get? (b >>> 2) with
      | none =>
          rw [hv] at hget
          rw [List.get?_eq_none] at hget
          omega
      | some q =>
          rw [hv] at hget
          rw [hget, cluster_qual, if_pos hpos]
          have hD : bins.getD (b >>> 2) 0 = q := by
            rw [List.getD_eq_getD_get?, hv]
            rfl
          rw [hD]
    · rw [hm, List.get?_map, hj, cluster_qual, if_neg (by omega)]
      rfl
  refine ⟨hblen, hqlen, fun k hk => ?_⟩
  obtain ⟨hlow, hhigh⟩ := nibble_expand_get d k hk
  refine ⟨?_, ?_, ?_, ?_⟩
  · rw [hbases, List.get?_map, hlow]; rfl
  · rw [hbases, List.get?_map, hhigh]; rfl
  · exact hqual_at (2 * k) _ hlow (by omega)
  · exact hqual_at (2 * k + 1) _ hhigh (by omega)

/-- Witness for C2 at the block `[0x1B, 0xE4]` with bins
`[2, 14, 25, 37]`. -/
theorem C2_decode_pointwise_witness :
    ({ bases := [84, 67, 65, 71], quals := [25, 2, 14, 37] } :
        BclTile).bases.length = 2 * ([27, 228] : List Nat).length :=
  (C2_decode_pointwise [27, 228] [2, 14, 25, 37]
      { bases := [84, 67, 65, 71], quals := [25, 2, 14, 37] }
      (by decide)).1

/-! ## C8: emitted tiles have equally many bases and quals -/

/-- A successful `parse_base_calls` keeps the tile's two lengths. -/
theorem parse_base_calls_lengths (input : List Nat) (t0 : BclTile)
    (bins : List Nat) (t : BclTile)
    (h : parse_base_calls input t0 bins = some (some t)) :
    t.bases.length = t0.bases.length ∧ t.quals.length = t0.quals.length := by
  obtain ⟨hbeq, hble, hqle, hq⟩ := parse_base_calls_some input t0 bins t h
  constructor
  · rw [hbeq, List.length_map, List.length_take]
    omega
  · rcases hq with ⟨_, hm⟩ | ⟨_, hm⟩
    · have := (map_bins_get bins _ _ hm).1
      rw [this, List.length_take]
      omega
    · rw [hm, List.length_map, List.length_take]
      omega

/-- `retain_const` keeps the list whole or empties it (or panics). -/
theorem retain_const_some {l filter l' : List Nat}
    (h : retain_const l filter = some l') :
    (l = [] ∧ l' = []) ∨
    (l ≠ [] ∧ ∃ b, filter.head? = some b ∧ l' = if b = 1 then l else []) := by
  unfold retain_const at h
  split at h
  · cases h
    exact Or.inl ⟨rfl, rfl⟩
  · next x xs =>
      split at h
      · cases h
      · next b hb =>
          cases h
          exact Or.inr ⟨by simp, b, hb, rfl⟩

/-- `filter_reads` preserves equality of the two lengths. -/
theorem filter_reads_lengths {t : BclTile} {f : List Nat} {t' : BclTile}
    (h : filter_reads t f = some t')
    (hlen : t.bases.length = t.quals.length) :
    t'.bases.length = t'.quals.length := by
  simp only [filter_reads, bind, Option.bind_eq_some] at h
  obtain ⟨bases', hb, h⟩ := h
  obtain ⟨quals', hq, h⟩ := h
  cases h
  rcases retain_const_some hb with ⟨hbe, hbe'⟩ | ⟨hbne, b, hbh, hbe'⟩ <;>
    rcases retain_const_some hq with ⟨hqe, hqe'⟩ | ⟨hqne, c, hqh, hqe'⟩
  · simp [hbe', hqe']
  · exfalso
    apply hqne
    have : t.bases.length = 0 := by rw [hbe]; rfl
    have : t.quals.length = 0 := by omega
    exact List.length_eq_zero.mp this
  · exfalso
    apply hbne
    have : t.quals.length = 0 := by rw [hqe]; rfl
    have : t.bases.length = 0 := by omega
    exact List.length_eq_zero.mp this
  · have hbc : b = c := by
      rw [hbh] at hqh
      exact Option.some.inj hqh
    subst hbc
    by_cases h1 : b = 1
    · simp only [hbe', hqe', if_pos h1]
      exact hlen
    · simp [hbe', hqe', if_neg h1]

/-- `apply_filter` preserves equality of the two lengths. -/
theorem apply_filter_lengths {td : TileData} {tile tile' : BclTile}
    (h : apply_filter td tile = some tile')
    (hlen : tile.bases.length = tile.quals.length) :
    tile'.bases.length = tile'.quals.length := by
  unfold apply_filter at h
  split at h
  · split at h
    · cases h
    · exact filter_reads_lengths h hlen
  · cases h
    exact hlen

/-- Every tile `read_tile` emits has as many bases as quals. -/
theorem read_tile_ok_lengths {gz : List Nat → Option (List Nat)}
    {r r' : Reader} {tile : BclTile}
    (h : read_tile gz r = some (r', some (Except.ok tile))) :
    tile.bases.length = tile.quals.length := by
  simp only [read_tile] at h
  split at h
  · simp at h
  · split at h
    · cases h
    · next td hcache =>
        split at h
        · simp at h
        · split at h
          · simp at h
          · next out hgz =>
              split at h
              · simp at h
              · split at h
                · cases h
                · simp at h
                · next tile1 hp =>
                    have hlen1 : tile1.bases.length = tile1.quals.length := by
                      have := parse_base_calls_lengths _ _ _ _ hp
                      simp [BclTile.with_capacity] at this
                      omega
                    split at h
                    · cases h
                    · next tile2 hfil =>
                        have htile : tile2 = tile := by
                          have := congrArg Prod.snd (Option.some.inj h)
                          simpa using this
                        subst htile
                        exact apply_filter_lengths hfil hlen1

/-- Every tile `next_tile` emits has as many bases as quals. -/
theorem next_tile_ok_lengths {gz : List Nat → Option (List Nat)}
    {r r' : Reader} {tile : BclTile}
    (h : next_tile gz r = some (r', some (Except.ok tile))) :
    tile.bases.length = tile.quals.length := by
  unfold next_tile at h
  split at h
  · cases h
  · simp at h
  · next r'' x heq =>
      have hx : x = Except.ok tile := by
        have := congrArg Prod.snd (Option.some.inj h)
        simpa using this
      subst hx
      exact read_tile_ok_lengths heq

/-- C8: every tile the iterator emits — binned or unbinned decode path,
filtered or not — satisfies `len(bases) = len(quals)`. -/
theorem C8_emitted_lengths (gz : List Nat → Option (List Nat))
    (filters : Nat → Option (List Nat)) (r r' : Reader) (tile : BclTile)
    (h : Reader.next gz filters r = some (r', some (Except.ok tile))) :
    tile.bases.length = tile.quals.length := by
  unfold Reader.next at h
  split at h
  · exact next_tile_ok_lengths h
  · split at h
    · cases h
    · simp at h
    · exact next_tile_ok_lengths h
  · simp at h

/-- Witness for C8 on the minimal binned scenario's emitted tile. -/
theorem C8_emitted_lengths_witness :
    ({ bases := [84, 67, 65, 71], quals := [25, 2, 14, 37] } :
        BclTile).bases.length =
    ({ bases := [84, 67, 65, 71], quals := [25, 2, 14, 37] } :
        BclTile).quals.length :=
  C8_emitted_lengths gz_id filters_none (Reader.new stream_binned_min)
    (next_state gz_id filters_none (Reader.new stream_binned_min))
    { bases := [84, 67, 65, 71], quals := [25, 2, 14, 37] }
    (by decide)

/-! ## C5: reset_with and idempotent re-draining -/

/-- `read_tile` behaves identically on two states that differ only in
tile-cache entries at or beyond `n_tiles`; the cache passes through
unchanged and `n_read` stays bounded by `n_tiles`. -/
theorem read_tile_congr (gz : List Nat → Option (List Nat))
    (s₁ s₂ : Reader) (hs : SameScan s₁ s₂)
    (hc : ∀ i, i < s₁.header.n_tiles →
      s₁.tile_cache.get? i = s₂.tile_cache.get? i)
    (hn : s₁.n_read ≤ s₁.header.n_tiles) :
    (read_tile gz s₁ = none ∧ read_tile gz s₂ = none) ∨
    (∃ t₁ t₂, read_tile gz s₁ = some (t₁, none) ∧
      read_tile gz s₂ = some (t₂, none)) ∨
    (∃ t₁ t₂ x, read_tile gz s₁ = some (t₁, some x) ∧
      read_tile gz s₂ = some (t₂, some x) ∧ SameScan t₁ t₂ ∧
      t₁.tile_cache = s₁.tile_cache ∧ t₂.tile_cache = s₂.tile_cache ∧
      t₁.header = s₁.header ∧ t₁.state = s₁.state ∧
      t₁.n_read ≤ t₁.header.n_tiles) := by
  obtain ⟨hstream, hbuf, hdb, hhdr, hst, hnr⟩ := hs
  obtain ⟨stream₁, buffer₁, db₁, hdr₁, c₁, st₁, n₁⟩ := s₁
  obtain ⟨stream₂, buffer₂, db₂, hdr₂, c₂, st₂, n₂⟩ := s₂
  subst hstream hbuf hdb hhdr hst hnr
  simp only [read_tile]
  by_cases h0 : n₁ = hdr₁.n_tiles
  · simp only [if_pos h0]
    exact Or.inr (Or.inl ⟨_, _, rfl, rfl⟩)
  · have hlt : n₁ < hdr₁.n_tiles := Nat.lt_of_le_of_ne hn h0
    have hcc := hc n₁ hlt
    simp only [if_neg h0]
    cases hg : c₁.get? n₁ with
    | none =>
        have hg2 : c₂.get? n₁ = none := hcc.symm.trans hg
        simp only [hg, hg2]
        exact Or.inl ⟨by trivial, by trivial⟩
    | some td =>
        have hg2 : c₂.get? n₁ = some td := hcc.symm.trans hg
        simp only [hg, hg2]
        by_cases hch : (List.take td.block_size_comp stream₁).length ≠
            td.block_size_comp
        · simp only [if_pos hch]
          refine Or.inr (Or.inr ⟨_, _, _, rfl, rfl,
            ⟨rfl, rfl, rfl, rfl, rfl, rfl⟩, rfl, rfl, rfl, rfl, ?_⟩)
          exact hn
        · simp only [if_neg hch]
          cases hgz : gz (buffer₁ ++ List.take td.block_size_comp stream₁) with
          | none =>
              simp only [hgz]
              refine Or.inr (Or.inr ⟨_, _, _, rfl, rfl,
                ⟨rfl, rfl, rfl, rfl, rfl, rfl⟩, rfl, rfl, rfl, rfl, ?_⟩)
              exact hn
          | some out =>
              simp only [hgz]
              by_cases hsz : out.length ≠ td.block_size_un
              · simp only [if_pos hsz]
                refine Or.inr (Or.inr ⟨_, _, _, rfl, rfl,
                  ⟨rfl, rfl, rfl, rfl, rfl, rfl⟩, rfl, rfl, rfl, rfl, ?_⟩)
                exact hn
              · simp only [if_neg hsz]
                cases hp : parse_base_calls
                    (nibble_expand (out ++ List.drop td.block_size_un
                      (if db₁.length < td.block_size_un then
                        db₁ ++ List.replicate (td.block_size_un - db₁.length) 0
                      else db₁)))
                    (BclTile.with_capacity (td.block_size_un * 2))
                    hdr₁.bins with
                | none =>
                    simp only [hp]
                    exact Or.inl ⟨by trivial, by trivial⟩
                | some po =>
                    cases po with
                    | none =>
                        simp only [hp]
                        refine Or.inr (Or.inr ⟨_, _, _, rfl, rfl,
                          ⟨rfl, rfl, rfl, rfl, rfl, rfl⟩, rfl, rfl, rfl, rfl,
                          ?_⟩)
                        exact hn
                    | some tile =>
                        simp only [hp]
                        cases hfl : apply_filter td tile with
                        | none =>
                            simp only [hfl]
                            exact Or.inl ⟨by trivial, by trivial⟩
                        | some tile2 =>
                            simp only [hfl]
                            refine Or.inr (Or.inr ⟨_, _, _, rfl, rfl,
                              ⟨rfl, rfl, rfl, rfl, rfl, rfl⟩, rfl, rfl, rfl,
                              rfl, ?_⟩)
                            dsimp only
                            omega

/-- `next_tile` congruence: same behaviour modulo the tile cache. -/
theorem next_tile_congr (gz : List Nat → Option (List Nat))
    (s₁ s₂ : Reader) (hs : SameScan s₁ s₂)
    (hc : ∀ i, i < s₁.header.n_tiles →
      s₁.tile_cache.get? i = s₂.tile_cache.get? i)
    (hn : s₁.n_read ≤ s₁.header.n_tiles) :
    (next_tile gz s₁ = none ∧ next_tile gz s₂ = none) ∨
    (∃ t₁ t₂, next_tile gz s₁ = some (t₁, none) ∧
      next_tile gz s₂ = some (t₂, none)) ∨
    (∃ t₁ t₂ x, next_tile gz s₁ = some (t₁, some x) ∧
      next_tile gz s₂ = some (t₂, some x) ∧ SameScan t₁ t₂ ∧
      t₁.tile_cache = s₁.tile_cache ∧ t₂.tile_cache = s₂.tile_cache ∧
      t₁.header = s₁.header ∧ t₁.state = s₁.state ∧
      t₁.n_read ≤ t₁.header.n_tiles) := by
  rcases read_tile_congr gz s₁ s₂ hs hc hn with
    ⟨h1, h2⟩ | ⟨t₁, t₂, h1, h2⟩ |
    ⟨t₁, t₂, x, h1, h2, hss, hc1, hc2, hh, hstt, hnn⟩
  · refine Or.inl ⟨?_, ?_⟩
    · simp only [next_tile, h1]
    · simp only [next_tile, h2]
  · refine Or.inr (Or.inl ⟨{ t₁ with state := CbclReaderState.Complete },
      { t₂ with state := CbclReaderState.Complete }, ?_, ?_⟩)
    · simp only [next_tile, h1]
    · simp only [next_tile, h2]
  · refine Or.inr (Or.inr ⟨t₁, t₂, x, ?_, ?_, hss, hc1, hc2, hh, hstt, hnn⟩)
    · simp only [next_tile, h1]
    · simp only [next_tile, h2]

/-- Draining two readers that differ only in stale tile-cache entries
(at or beyond `n_tiles`) gives the same result sequence. -/
theorem drain_congr (gz : List Nat → Option (List Nat))
    (filters : Nat → Option (List Nat)) :
    ∀ fuel (s₁ s₂ : Reader), SameScan s₁ s₂ →
    (∀ i, i < s₁.header.n_tiles →
      s₁.tile_cache.get? i = s₂.tile_cache.get? i) →
    s₁.n_read ≤ s₁.header.n_tiles →
    s₁.state ≠ CbclReaderState.Header →
    Reader.drain gz filters fuel s₁ = Reader.drain gz filters fuel s₂ := by
  intro fuel
  induction fuel with
  | zero => intro s₁ s₂ _ _ _ _; rfl
  | succ m ih =>
      intro s₁ s₂ hs hc hn hnh
      have hstate2 : s₂.state = s₁.state := (hs.2.2.2.2.1).symm
      simp only [Reader.drain]
      cases hstate : s₁.state with
      | Header => exact absurd hstate hnh
      | Complete =>
          rw [hstate] at hstate2
          simp only [Reader.next, hstate, hstate2]
      | Tile =>
          rw [hstate] at hstate2
          simp only [Reader.next, hstate, hstate2]
          rcases next_tile_congr gz s₁ s₂ hs hc hn with
            ⟨h1, h2⟩ | ⟨t₁, t₂, h1, h2⟩ |
            ⟨t₁, t₂, x, h1, h2, hss, hc1, hc2, hh, hstt, hnn⟩
          · simp only [h1, h2]
          · simp only [h1, h2]
          · simp only [h1, h2]
            have htail : Reader.drain gz filters m t₁ =
                Reader.drain gz filters m t₂ := by
              apply ih t₁ t₂ hss
              · intro i hi
                rw [hc1, hc2]
                exact hc i (by rw [← hh]; exact hi)
              · exact hnn
              · rw [hstt, hstate]
                simp
            rw [htail]

/-- A successful `cbcl_header` returns `num_tiles` tile rows. -/
theorem cbcl_header_tiles_length (input rest : List Nat)
    (raw : CbclHeaderRaw) (h : cbcl_header input = some (rest, raw)) :
    raw.tile_data.length = raw.num_tiles := by
  unfold cbcl_header at h
  simp only [bind, Option.bind_eq_some] at h
  obtain ⟨⟨i1, bb⟩, h1, h⟩ := h
  obtain ⟨⟨i2, bq⟩, h2, h⟩ := h
  obtain ⟨⟨i3, nb⟩, h3, h⟩ := h
  obtain ⟨⟨i4, bins⟩, h4, h⟩ := h
  obtain ⟨⟨i5, nt⟩, h5, h⟩ := h
  obtain ⟨⟨i6, td⟩, h6, h⟩ := h
  obtain ⟨⟨i7, pf⟩, h7, h⟩ := h
  cases h
  exact (count_len (fun i r v hh => cbcl_tile_data_len hh) nt i5 i6 td h6).2

/-- A successful `read_header` returns `n_tiles` tile rows and a cleared
buffer. -/
theorem read_header_rows_length (filters : Nat → Option (List Nat))
    (stream : List Nat) (hdr : CBclHeader) (rows : List TileData)
    (stream' buf' : List Nat)
    (h : read_header filters stream =
      some (.ok (hdr, rows), stream', buf')) :
    rows.length = hdr.n_tiles ∧ buf' = [] := by
  simp only [read_header] at h
  split at h
  · simp at h
  · split at h
    · simp at h
    · next p hv =>
        split at h
        · cases h
        · split at h
          · simp at h
          · split at h
            · simp at h
            · next raw hdrp =>
                split at h
                · cases h
                · next bl hbl =>
                    cases h
                    refine ⟨?_, rfl⟩
                    dsimp only
                    rw [List.length_map]
                    exact cbcl_header_tiles_length _ _ _ hdrp

/-- C5 amended: `reset_with(path, clear_tile_cache = false)` followed by
a full drain agrees with a fresh reader on `path`, provided the tile
rows left in the cache by the previously drained CBCL equal the rows of
`path`'s own header (in particular, when the previously drained CBCL was
`path` itself). The header read appends `path`'s rows to the stale
cache, and only entries below `n_tiles` — identical in both readers —
are ever consulted. -/
theorem C5_reset_drain (gz : List Nat → Option (List Nat))
    (filters : Nat → Option (List Nat)) (fuel : Nat) (r : Reader)
    (stream : List Nat) (hdr : CBclHeader) (rows : List TileData)
    (stream' buf' : List Nat)
    (hread : read_header filters stream =
      some (.ok (hdr, rows), stream', buf'))
    (hcache : r.tile_cache = rows) :
    Reader.drain gz filters fuel (r.reset_with stream false) =
      Reader.drain gz filters fuel (Reader.new stream) := by
  obtain ⟨hrows, hbuf'⟩ := read_header_rows_length filters stream hdr rows
    stream' buf' hread
  subst hbuf'
  cases fuel with
  | zero => rfl
  | succ m =>
      simp only [Reader.drain, Reader.next, Reader.reset_with, Reader.new,
        hread, hcache, Bool.false_eq_true, if_false, List.nil_append]
      have hcc : ∀ i, i <
          ({ stream := stream', buffer := [], decomp_buffer := [],
             header := hdr, tile_cache := rows ++ rows,
             state := CbclReaderState.Tile, n_read := 0 } :
            Reader).header.n_tiles →
          (rows ++ rows).get? i = rows.get? i := by
        intro i hi
        dsimp only at hi
        exact List.get?_append (by omega)
      rcases next_tile_congr gz
        { stream := stream', buffer := [], decomp_buffer := [],
          header := hdr, tile_cache := rows ++ rows,
          state := CbclReaderState.Tile, n_read := 0 }
        { stream := stream', buffer := [], decomp_buffer := [],
          header := hdr, tile_cache := rows,
          state := CbclReaderState.Tile, n_read := 0 }
        ⟨rfl, rfl, rfl, rfl, rfl, rfl⟩ hcc (Nat.zero_le _) with
        ⟨h1, h2⟩ | ⟨t₁, t₂, h1, h2⟩ |
        ⟨t₁, t₂, x, h1, h2, hss, hc1, hc2, hh, hstt, hnn⟩
      · simp only [h1, h2]
      · simp only [h1, h2]
      · simp only [h1, h2]
        have htail := drain_congr gz filters m t₁ t₂ hss
          (by
            intro i hi
            rw [hc1, hc2]
            exact hcc i (by rw [← hh]; exact hi))
          hnn
          (by
            rw [hstt]
            simp)
        rw [htail]

/-- C5 counterexample: after fully draining CBCL `A` (a different file),
`reset_with(B, clear_tile_cache = false)` followed by a drain yields no
tiles at all — the stale cached row of `A` (compressed size 2) is used
against `B`'s 1-byte stream, so every call errors — whereas a fresh
reader on `B` yields its one tile `bases "CG"`, `quals [2, 2]`. -/
theorem C5_counterexample :
    reader_drained_A.state = CbclReaderState.Complete ∧
    Reader.tiles gz_id filters_none 3 (Reader.new stream_B) =
      some [{ bases := [67, 71], quals := [2, 2] }] ∧
    Reader.tiles gz_id filters_none 3
        (reader_drained_A.reset_with stream_B false) = some [] ∧
    (some [({ bases := [67, 71], quals := [2, 2] } : BclTile)] ≠
      some ([] : List BclTile)) := by
  decide

/-- Witness for C5 on `stream_B` with a cache equal to its own rows. -/
theorem C5_reset_drain_witness :
    Reader.drain gz_id filters_none 3
        (readerB_cache.reset_with stream_B false) =
      Reader.drain gz_id filters_none 3 (Reader.new stream_B) :=
  C5_reset_drain gz_id filters_none 3 readerB_cache stream_B hdrB rowsB
    [33] [] (by decide) (by decide)

end Illuvatar
